import Mathlib

/-!
Shallow embedding of `src/utils/pokemonFetcher.ts` (function
`fetchPokemonListWithDetails` and the types it uses from
`src/types/pokemon.ts`), together with theorems settling the claims about
its behaviour.

Modelling conventions:
* Machine-level JavaScript values are modelled by plain Lean data:
  `string | null` becomes `Option String`, array indexing `a[i]` becomes
  `l[i]?` (JavaScript yields `undefined` out of range, which makes the
  subsequent property access throw).
* The network is an explicit environment: the listing request's outcome, a
  stream of random draws (one natural number per `Math.random()` call), and
  a per-slot behaviour for each detail request (its latency in ms and how
  it settles).
* A promise that settles is an `Except JsError` value; `Promise.allSettled`
  maps a list of these to `SettledResult`s, index-aligned with its input
  list, which is exactly the ECMAScript semantics.
* The `while` selection loop need not terminate, so it is given fuel and
  returns `none` when the fuel is exhausted before the loop exits; for
  every terminating execution some fuel reproduces it.
-/

namespace PokemonFetcher

/-- `PokemonListItem` from `src/types/pokemon.ts`: one entry of the listing
response (a reference handle: name + url). -/
structure PokemonListItem where
  name : String
  url : String
deriving DecidableEq, Repr

/-- `PokemonListResponse` from `src/types/pokemon.ts` (fields the fetcher
reads). -/
structure PokemonListResponse where
  count : Nat
  results : List PokemonListItem
deriving DecidableEq, Repr

/-- `PokemonSprites` from `src/types/pokemon.ts`: `front_default` is
`string | null`. -/
structure PokemonSprites where
  front_default : Option String
deriving DecidableEq, Repr

/-- `Pokemon` from `src/types/pokemon.ts`, restricted to the fields the
fetcher touches. -/
structure Pokemon where
  id : Nat
  name : String
  sprites : PokemonSprites
deriving DecidableEq, Repr

/-- `PokemonWithImage` from `src/types/pokemon.ts`: a handle enriched with
the (possibly absent) sprite url and the skeleton flag. -/
structure PokemonWithImage where
  name : String
  url : String
  image : Option String
  isLoading : Bool
deriving DecidableEq, Repr

/-- Exceptions a detail-request task can raise: the abort triggered by the
timeout timer, a rejected fetch (network failure), or a body that does not
yield a usable record (JSON parse failure, or a shape on which reading
`sprites.front_default` throws). -/
inductive JsError where
  | aborted
  | networkFailure
  | badBody
  | typeError
deriving DecidableEq, Repr

/-- How one detail request would settle if it were never aborted. -/
inductive NetOutcome where
  | reject
  | respond (body : Option Pokemon)
deriving DecidableEq, Repr

/-- Environment of a single detail retrieval: how long the request stays in
flight before settling, and how it settles. -/
structure RetrievalEnv where
  latency : Nat
  outcome : NetOutcome
deriving DecidableEq, Repr

/-- The response object handed back by a non-aborted, non-rejected fetch:
its body, as the record `json()` produces (`none` when parsing fails or the
shape lacks the sprite field). -/
structure HttpResponse where
  body : Option Pokemon
deriving DecidableEq, Repr

/-- Lines 49-52: `fetch(pokemon.url, { signal })` raced against
`setTimeout(() => controller.abort(), requestTimeout)`.  When the request
is still in flight at `T` ms (`T ≤ latency`) the timer fires first and the
await raises the abort error; otherwise the request settles on its own. -/
def jsFetch (T : Nat) (e : RetrievalEnv) : Except JsError HttpResponse :=
  if T ≤ e.latency then .error .aborted
  else
    match e.outcome with
    | .reject => .error .networkFailure
    | .respond b => .ok ⟨b⟩

/-- Line 55: `await detailResponse.json()` typed as `Pokemon`; a body that
does not produce a usable record raises. -/
def jsJson (resp : HttpResponse) : Except JsError Pokemon :=
  match resp.body with
  | none => .error .badBody
  | some p => .ok p

/-- The retrieval part of one task body (lines 49-55): fetch with abort
signal, then parse. -/
def attemptDetail (T : Nat) (e : RetrievalEnv) : Except JsError Pokemon := do
  let resp ← jsFetch T e
  jsJson resp

/-- The `try` block of one detail task (lines 48-61): retrieve, then build
the enriched item with `image := details.sprites.front_default` and
`isLoading := false`. -/
def tryBody (T : Nat) (h : PokemonWithImage) (e : RetrievalEnv) :
    Except JsError PokemonWithImage := do
  let details ← attemptDetail T e
  pure { name := h.name, url := h.url,
         image := details.sprites.front_default, isLoading := false }

/-- The `catch` block (lines 62-71): any exception from the try block is
consumed and the item degrades to `image := null`, `isLoading := false`. -/
def catchHandler (h : PokemonWithImage) (_e : JsError) : PokemonWithImage :=
  { name := h.name, url := h.url, image := none, isLoading := false }

/-- One element of `detailPromises` (lines 47-72): the async closure for
one placeholder.  Its body is the try/catch, so the promise it denotes
always fulfills. -/
def detailPromise (T : Nat) (h : PokemonWithImage) (e : RetrievalEnv) :
    Except JsError PokemonWithImage :=
  match tryBody T h e with
  | .ok v => .ok v
  | .error err => .ok (catchHandler h err)

/-- The value a single detail task settles to. -/
def settleItem (T : Nat) (h : PokemonWithImage) (e : RetrievalEnv) :
    PokemonWithImage :=
  match tryBody T h e with
  | .ok v => v
  | .error err => catchHandler h err

/-- Line 47: `randomPokemon.map(async (pokemon) => ...)`.  The environment
assigns each dispatched task (by its position in the list) its own network
behaviour. -/
def detailPromises (T : Nat) (denv : Nat → RetrievalEnv) :
    List PokemonWithImage → Nat → List (Except JsError PokemonWithImage)
  | [], _ => []
  | h :: t, i => detailPromise T h (denv i) :: detailPromises T denv t (i + 1)

/-- Outcome of one settled promise as `Promise.allSettled` reports it. -/
inductive SettledResult (α : Type) where
  | fulfilled (value : α)
  | rejected (reason : JsError)
deriving DecidableEq, Repr

/-- Line 75: `Promise.allSettled(detailPromises)`.  Per the ECMAScript
specification the result array is index-aligned with the input array of
promises, whatever order the promises settle in. -/
def allSettled {α : Type} (ps : List (Except JsError α)) : List (SettledResult α) :=
  ps.map fun p =>
    match p with
    | .ok v => .fulfilled v
    | .error e => .rejected e

/-- Line 78: `results.filter(status === "fulfilled").map(r => r.value)`. -/
def extractFulfilled {α : Type} (rs : List (SettledResult α)) : List α :=
  rs.filterMap fun r =>
    match r with
    | .fulfilled v => some v
    | .rejected _ => none

/-- Lines 47-80: the whole parallel detail phase, from the placeholder list
to the returned list. -/
def loadDetails (T : Nat) (ps : List PokemonWithImage) (denv : Nat → RetrievalEnv) :
    List PokemonWithImage :=
  extractFulfilled (allSettled (detailPromises T denv ps 0))

/-- The settled values of the detail tasks, position by position. -/
def settleList (T : Nat) (denv : Nat → RetrievalEnv) :
    List PokemonWithImage → Nat → List PokemonWithImage
  | [], _ => []
  | h :: t, i => settleItem T h (denv i) :: settleList T denv t (i + 1)

theorem detailPromise_eq_ok (T : Nat) (h : PokemonWithImage) (e : RetrievalEnv) :
    detailPromise T h e = .ok (settleItem T h e) := by
  unfold detailPromise settleItem
  cases tryBody T h e <;> rfl

theorem loadDetails_eq_settleList_aux (T : Nat) (denv : Nat → RetrievalEnv)
    (ps : List PokemonWithImage) :
    ∀ i, extractFulfilled (allSettled (detailPromises T denv ps i)) =
      settleList T denv ps i := by
  induction ps with
  | nil => intro i; rfl
  | cons h t ih =>
    intro i
    simp only [detailPromises, allSettled, extractFulfilled, List.map_cons,
      List.filterMap_cons, settleList, detailPromise_eq_ok]
    exact congrArg _ (ih (i + 1))

theorem loadDetails_eq_settleList (T : Nat) (ps : List PokemonWithImage)
    (denv : Nat → RetrievalEnv) :
    loadDetails T ps denv = settleList T denv ps 0 :=
  loadDetails_eq_settleList_aux T denv ps 0

theorem settleItem_name_url (T : Nat) (h : PokemonWithImage) (e : RetrievalEnv) :
    (settleItem T h e).name = h.name ∧ (settleItem T h e).url = h.url := by
  unfold settleItem tryBody catchHandler
  cases attemptDetail T e <;> exact ⟨rfl, rfl⟩

theorem settleList_map_name_url (T : Nat) (denv : Nat → RetrievalEnv)
    (ps : List PokemonWithImage) :
    ∀ i, (settleList T denv ps i).map (fun p => (p.name, p.url)) =
      ps.map (fun p => (p.name, p.url)) := by
  induction ps with
  | nil => intro i; rfl
  | cons h t ih =>
    intro i
    simp only [settleList, List.map_cons, (settleItem_name_url T h (denv i)).1,
      (settleItem_name_url T h (denv i)).2, ih (i + 1)]

theorem loadDetails_map_name_url (T : Nat) (ps : List PokemonWithImage)
    (denv : Nat → RetrievalEnv) :
    (loadDetails T ps denv).map (fun p => (p.name, p.url)) =
      ps.map (fun p => (p.name, p.url)) := by
  rw [loadDetails_eq_settleList]
  exact settleList_map_name_url T denv ps 0

theorem loadDetails_length (T : Nat) (ps : List PokemonWithImage)
    (denv : Nat → RetrievalEnv) :
    (loadDetails T ps denv).length = ps.length := by
  have h := congrArg List.length (loadDetails_map_name_url T ps denv)
  simpa using h

/-- `FetchPokemonOptions` from the source: both fields optional. -/
structure FetchPokemonOptions where
  requestTimeout : Option Nat
  count : Option Nat
deriving DecidableEq, Repr

/-- Line 22: `const { requestTimeout = 10000, count = 10 } = options`. -/
def resolvedTimeout (o : FetchPokemonOptions) : Nat :=
  o.requestTimeout.getD 10000

/-- Line 22, second default. -/
def resolvedCount (o : FetchPokemonOptions) : Nat :=
  o.count.getD 10

/-- The url of the listing request (line 25). -/
def listUrl : String := "https://pokeapi.co/api/v2/pokemon?limit=1000"

/-- Line 33: `Math.floor(Math.random() * data.results.length)`.  The
random source is an arbitrary stream of naturals, the k-th draw reduced
modulo the length; for an empty listing the product is 0. -/
def randomIndex (r : Nat → Nat) (len k : Nat) : Nat :=
  if len = 0 then 0 else r k % len

/-- The placeholder item built at lines 37-42. -/
def placeholder (e : PokemonListItem) : PokemonWithImage :=
  { name := e.name, url := e.url, image := none, isLoading := true }

/-- Lines 29-44: the random-selection `while` loop, with explicit state
(`k`: number of `Math.random()` calls so far, `acc`: `randomPokemon`,
`used`: `usedIndices`) and fuel.  `none` means the loop is still running
when the fuel runs out; `.error .typeError` is the crash when
`data.results[randomIndex]` is `undefined` (empty listing). -/
def selectLoop (results : List PokemonListItem) (count : Nat) (r : Nat → Nat) :
    Nat → Nat → List PokemonWithImage → List Nat →
    Option (Except JsError (List PokemonWithImage))
  | 0, _, acc, _ =>
    if acc.length < count then none else some (.ok acc)
  | fuel + 1, k, acc, used =>
    if acc.length < count then
      let idx := randomIndex r results.length k
      if idx ∈ used then
        selectLoop results count r fuel (k + 1) acc used
      else
        match results[idx]? with
        | none => some (.error .typeError)
        | some e =>
          selectLoop results count r fuel (k + 1) (acc ++ [placeholder e])
            (idx :: used)
    else
      some (.ok acc)

/-- The world the routine runs in: outcome of the listing fetch+parse, the
random stream, and the behaviour of each detail request (by dispatch
position). -/
structure FetchEnv where
  listing : Except JsError PokemonListResponse
  rand : Nat → Nat
  details : Nat → RetrievalEnv

/-- The whole of `fetchPokemonListWithDetails` (lines 21-81): await the
listing (its failure propagates, line 25-26), run the selection loop
(lines 29-44), then the parallel detail phase (lines 47-80).  `none` means
the selection loop has not exited within the fuel. -/
def fetchPokemonListWithDetails (opts : FetchPokemonOptions) (env : FetchEnv)
    (fuel : Nat) : Option (Except JsError (List PokemonWithImage)) :=
  match env.listing with
  | .error e => some (.error e)
  | .ok data =>
    match selectLoop data.results (resolvedCount opts) env.rand fuel 0 [] [] with
    | none => none
    | some (.error e) => some (.error e)
    | some (.ok ps) =>
      some (.ok (loadDetails (resolvedTimeout opts) ps env.details))

/-- The urls the routine requests over the network, in dispatch order: the
listing url (line 25, issued unconditionally first), then one detail
request per selected placeholder (line 52).  `none` when the selection
loop has not exited within the fuel. -/
def issuedRequests (opts : FetchPokemonOptions) (env : FetchEnv) (fuel : Nat) :
    Option (List String) :=
  match env.listing with
  | .error _ => some [listUrl]
  | .ok data =>
    match selectLoop data.results (resolvedCount opts) env.rand fuel 0 [] [] with
    | none => none
    | some (.error _) => some [listUrl]
    | some (.ok ps) => some (listUrl :: ps.map (fun p => p.url))

/-! Concrete sample data used by witnesses and counterexamples. -/

/-- Sample handle. -/
def itemA : PokemonListItem := ⟨"a", "ua"⟩

/-- Sample handle. -/
def itemB : PokemonListItem := ⟨"b", "ub"⟩

/-- A two-entry listing response. -/
def listingAB : PokemonListResponse := ⟨2, [itemA, itemB]⟩

/-- A record whose sprite field is present. -/
def pokeA : Pokemon := ⟨1, "a", ⟨some "imgA"⟩⟩

/-- A record whose sprite field is null (the type in
`src/types/pokemon.ts` is `string | null`). -/
def pokeNullSprite : Pokemon := ⟨7, "m", ⟨none⟩⟩

/-- A detail request that rejects at once (network failure). -/
def rejectEnv : RetrievalEnv := ⟨0, .reject⟩

/-- A detail request that resolves at once with `pokeA`. -/
def okEnvA : RetrievalEnv := ⟨0, .respond (some pokeA)⟩

/-- A detail request still in flight after 200 ms. -/
def slowEnv : RetrievalEnv := ⟨200, .respond (some pokeA)⟩

/-- A full environment: listing `listingAB`, random stream constantly 0,
every detail request resolving with `pokeA`. -/
def envA : FetchEnv := ⟨.ok listingAB, fun _ => 0, fun _ => okEnvA⟩

/-! Helper lemmas shared between claims. -/

theorem settleItem_isLoading (T : Nat) (h : PokemonWithImage) (e : RetrievalEnv) :
    (settleItem T h e).isLoading = false := by
  unfold settleItem tryBody catchHandler
  cases attemptDetail T e <;> rfl

theorem settleList_isLoading (T : Nat) (denv : Nat → RetrievalEnv) :
    ∀ (ps : List PokemonWithImage) (i : Nat) (p : PokemonWithImage),
      p ∈ settleList T denv ps i → p.isLoading = false := by
  intro ps
  induction ps with
  | nil => intro i p hp; cases hp
  | cons h t ih =>
    intro i p hp
    rcases List.mem_cons.mp hp with h1 | h2
    · rw [h1]; exact settleItem_isLoading T h (denv i)
    · exact ih (i + 1) p h2

theorem tryBody_error_of_abort (T : Nat) (h : PokemonWithImage)
    (e : RetrievalEnv) (habort : T ≤ e.latency) :
    tryBody T h e = .error .aborted := by
  unfold tryBody attemptDetail jsFetch
  rw [if_pos habort]
  rfl

/-- C1: for every input sequence of N reference handles and every
combination of per-item retrieval outcomes, the detail phase returns
exactly N items, and the item at every position carries the name and url
of the handle at the same position, however many retrievals failed. -/
theorem C1_completeness (T : Nat) (ps : List PokemonWithImage)
    (denv : Nat → RetrievalEnv) :
    (loadDetails T ps denv).length = ps.length ∧
    ∀ i : Nat,
      ((loadDetails T ps denv)[i]?).map (fun p => (p.name, p.url)) =
        (ps[i]?).map (fun p => (p.name, p.url)) := by
  refine ⟨loadDetails_length T ps denv, fun i => ?_⟩
  have hmap := loadDetails_map_name_url T ps denv
  calc ((loadDetails T ps denv)[i]?).map (fun p => (p.name, p.url))
      = ((loadDetails T ps denv).map (fun p => (p.name, p.url)))[i]? := by
        rw [List.getElem?_map]
    _ = ((ps.map (fun p => (p.name, p.url)))[i]?) := by rw [hmap]
    _ = (ps[i]?).map (fun p => (p.name, p.url)) := by rw [List.getElem?_map]

/-- C2: every per-item failure is caught locally: each detail task's
promise fulfills no matter what (first conjunct); when the try block
raises, the task settles to the same item with `image := null` (second
conjunct); and whenever the listing and the selection phases complete, the
routine returns normally whatever the per-item network behaviours are
(third conjunct) — a per-item failure never rejects the batch. -/
theorem C2_degrade_not_throw :
    (∀ (T : Nat) (h : PokemonWithImage) (e : RetrievalEnv),
      ∃ v, detailPromise T h e = .ok v) ∧
    (∀ (T : Nat) (h : PokemonWithImage) (e : RetrievalEnv) (err : JsError),
      tryBody T h e = .error err →
      detailPromise T h e =
        .ok { name := h.name, url := h.url, image := none, isLoading := false }) ∧
    (∀ (opts : FetchPokemonOptions) (env : FetchEnv) (fuel : Nat)
      (data : PokemonListResponse) (ps : List PokemonWithImage),
      env.listing = .ok data →
      selectLoop data.results (resolvedCount opts) env.rand fuel 0 [] [] =
        some (.ok ps) →
      ∃ out, fetchPokemonListWithDetails opts env fuel = some (.ok out)) := by
  refine ⟨fun T h e => ⟨settleItem T h e, detailPromise_eq_ok T h e⟩,
    fun T h e err herr => ?_, fun opts env fuel data ps hl hs => ?_⟩
  · unfold detailPromise catchHandler
    rw [herr]
  · refine ⟨loadDetails (resolvedTimeout opts) ps env.details, ?_⟩
    simp only [fetchPokemonListWithDetails, hl, hs]

/-- Witness for C2 at concrete inputs: a task whose fetch rejects settles
to the degraded item, and a run whose selection succeeds returns normally
although every detail request fails. -/
theorem C2_degrade_not_throw_witness :
    (detailPromise 100 (placeholder itemA) rejectEnv =
      .ok { name := "a", url := "ua", image := none, isLoading := false }) ∧
    (∃ out, fetchPokemonListWithDetails ⟨some 100, some 1⟩
      ⟨.ok listingAB, fun _ => 0, fun _ => rejectEnv⟩ 1 = some (.ok out)) :=
  ⟨C2_degrade_not_throw.2.1 100 (placeholder itemA) rejectEnv
      .networkFailure rfl,
    C2_degrade_not_throw.2.2 ⟨some 100, some 1⟩
      ⟨.ok listingAB, fun _ => 0, fun _ => rejectEnv⟩ 1 listingAB
      [placeholder itemA] rfl rfl⟩

/-- C4: when the caller supplies no timeout it resolves to 10000 ms; a
request still in flight when the timer fires is aborted (the await raises
the abort error), and that item settles to `image := null` instead of
staying pending. -/
theorem C4_timeout_honored :
    (∀ o : FetchPokemonOptions, o.requestTimeout = none →
      resolvedTimeout o = 10000) ∧
    (∀ (T : Nat) (e : RetrievalEnv), T ≤ e.latency →
      jsFetch T e = .error .aborted) ∧
    (∀ (T : Nat) (h : PokemonWithImage) (e : RetrievalEnv), T ≤ e.latency →
      settleItem T h e =
        { name := h.name, url := h.url, image := none, isLoading := false }) := by
  refine ⟨fun o ho => ?_, fun T e he => ?_, fun T h e he => ?_⟩
  · unfold resolvedTimeout
    rw [ho]
    rfl
  · unfold jsFetch
    rw [if_pos he]
  · unfold settleItem
    rw [tryBody_error_of_abort T h e he]
    rfl

/-- Witness for C4 at concrete inputs: the defaulted options resolve to a
10000 ms timeout, and a request with 200 ms latency under a 100 ms timeout
is aborted and degrades to `image := null`. -/
theorem C4_timeout_honored_witness :
    resolvedTimeout ⟨none, some 10⟩ = 10000 ∧
    jsFetch 100 slowEnv = .error .aborted ∧
    settleItem 100 (placeholder itemA) slowEnv =
      { name := "a", url := "ua", image := none, isLoading := false } :=
  ⟨C4_timeout_honored.1 ⟨none, some 10⟩ rfl,
    C4_timeout_honored.2.1 100 slowEnv (by decide),
    C4_timeout_honored.2.2 100 (placeholder itemA) slowEnv (by decide)⟩

/-- C8: every item in a sequence the routine returns has
`isLoading = false`; the routine never returns an item still marked
loading. -/
theorem C8_isLoading_false (opts : FetchPokemonOptions) (env : FetchEnv)
    (fuel : Nat) (out : List PokemonWithImage)
    (hrun : fetchPokemonListWithDetails opts env fuel = some (.ok out)) :
    ∀ p ∈ out, p.isLoading = false := by
  intro p hp
  unfold fetchPokemonListWithDetails at hrun
  rcases hlist : env.listing with e | data
  · simp only [hlist] at hrun
    exact absurd (Option.some.inj hrun) (fun h => Except.noConfusion h)
  · simp only [hlist] at hrun
    rcases hsel : selectLoop data.results (resolvedCount opts) env.rand fuel 0 [] [] with
      _ | res
    · simp only [hsel] at hrun
      exact Option.noConfusion hrun
    · simp only [hsel] at hrun
      rcases res with e | ps
      · exact absurd (Option.some.inj hrun) (fun h => Except.noConfusion h)
      · have hout : out = loadDetails (resolvedTimeout opts) ps env.details := by
          have h1 := Option.some.inj hrun
          exact (Except.ok.inj h1).symm
        rw [hout, loadDetails_eq_settleList] at hp
        exact settleList_isLoading (resolvedTimeout opts) env.details ps 0 p hp

/-- Witness for C8: a concrete successful run returns the single item with
`isLoading = false`. -/
theorem C8_isLoading_false_witness :
    ({ name := "a", url := "ua", image := some "imgA", isLoading := false } :
      PokemonWithImage).isLoading = false :=
  C8_isLoading_false ⟨some 100, some 1⟩ envA 1
    [{ name := "a", url := "ua", image := some "imgA", isLoading := false }]
    rfl
    { name := "a", url := "ua", image := some "imgA", isLoading := false }
    (List.mem_singleton.mpr rfl)

theorem settleList_getElem (T : Nat) (denv : Nat → RetrievalEnv) :
    ∀ (ps : List PokemonWithImage) (i j : Nat) (h : PokemonWithImage),
      ps[j]? = some h →
      (settleList T denv ps i)[j]? = some (settleItem T h (denv (i + j))) := by
  intro ps
  induction ps with
  | nil => intro i j h hj; cases hj
  | cons hd t ih =>
    intro i j h hj
    cases j with
    | zero =>
      have hh : hd = h := by simpa using hj
      simp [settleList, hh]
    | succ j' =>
      have hj' : t[j']? = some h := by simpa using hj
      have := ih (i + 1) j' h hj'
      simpa [settleList, Nat.add_assoc, Nat.add_comm 1 j'] using this

/-- C3 as stated is false on the code: a retrieval that succeeds can still
yield `image = null`, because the retrieved record's
`sprites.front_default` is typed `string | null`.  Concretely, with two
items where only item 1 fails (a proper subset), item 0's retrieval
succeeds with a record whose sprite field is null, and item 0 ends with
`image = null`. -/
theorem C3_isolation_counterexample :
    attemptDetail 100 ⟨0, .respond (some pokeNullSprite)⟩ = .ok pokeNullSprite ∧
    attemptDetail 100 rejectEnv = .error .networkFailure ∧
    (loadDetails 100 [placeholder ⟨"m", "um"⟩, placeholder itemB]
        (fun i => if i = 0 then ⟨0, .respond (some pokeNullSprite)⟩ else rejectEnv))[0]? =
      some { name := "m", url := "um", image := none, isLoading := false } :=
  ⟨rfl, rfl, rfl⟩

/-- C3 (amended): an item whose own retrieval succeeds is unaffected by
the other items' failures or timeouts — its slot in the output is
determined by its own retrieval alone, and its image equals the retrieved
record's `sprites.front_default` (in particular non-null whenever that
field is non-null). -/
theorem C3_isolation_amended (T : Nat) (ps : List PokemonWithImage)
    (denv : Nat → RetrievalEnv) (j : Nat) (h : PokemonWithImage) (d : Pokemon)
    (hj : ps[j]? = some h) (hd : attemptDetail T (denv j) = .ok d) :
    (loadDetails T ps denv)[j]? =
      some { name := h.name, url := h.url,
             image := d.sprites.front_default, isLoading := false } := by
  rw [loadDetails_eq_settleList]
  have hidx := settleList_getElem T denv ps 0 j h hj
  rw [Nat.zero_add] at hidx
  rw [hidx]
  unfold settleItem tryBody
  rw [hd]
  rfl

/-- Witness for the amended C3: with item 0 succeeding and item 1
rejected, item 0 keeps its own sprite. -/
theorem C3_isolation_amended_witness :
    (loadDetails 100 [placeholder itemA, placeholder itemB]
        (fun i => if i = 0 then okEnvA else rejectEnv))[0]? =
      some { name := "a", url := "ua", image := some "imgA", isLoading := false } :=
  C3_isolation_amended 100 [placeholder itemA, placeholder itemB]
    (fun i => if i = 0 then okEnvA else rejectEnv) 0 (placeholder itemA) pokeA
    rfl rfl

/-- C5 as stated is false on the code: there is no execution in which the
output ordering differs from the input ordering, because
`Promise.allSettled` reports results index-aligned with the submitted
promise array (and the filter keeps relative order), independently of
completion order. -/
theorem C5_order_counterexample :
    ¬ ∃ (T : Nat) (ps : List PokemonWithImage) (denv : Nat → RetrievalEnv),
      (loadDetails T ps denv).map (fun p => (p.name, p.url)) ≠
        ps.map (fun p => (p.name, p.url)) := by
  rintro ⟨T, ps, denv, hne⟩
  exact hne (loadDetails_map_name_url T ps denv)

/-- C5 (amended): the order of the returned sequence always matches the
input order: the join is index-aligned with submission order, not
completion order, in every execution (whatever the per-item latencies and
outcomes are). -/
theorem C5_order_amended (T : Nat) (ps : List PokemonWithImage)
    (denv : Nat → RetrievalEnv) :
    (loadDetails T ps denv).map (fun p => (p.name, p.url)) =
      ps.map (fun p => (p.name, p.url)) :=
  loadDetails_map_name_url T ps denv

/-- C6 as stated is false on the code: with zero items requested the
routine does return an empty output sequence, but it still issues one
network call — the listing request is inside the routine and is issued
unconditionally before the selection. -/
theorem C6_empty_counterexample :
    fetchPokemonListWithDetails ⟨some 100, some 0⟩ envA 0 = some (.ok []) ∧
    issuedRequests ⟨some 100, some 0⟩ envA 0 = some [listUrl] ∧
    ([listUrl] : List String) ≠ [] :=
  ⟨rfl, rfl, by decide⟩

theorem selectLoop_count_zero (results : List PokemonListItem) (r : Nat → Nat)
    (fuel k : Nat) :
    selectLoop results 0 r fuel k [] [] = some (.ok []) := by
  cases fuel <;> simp [selectLoop]

/-- C6 (amended): with zero items requested the routine returns the empty
sequence immediately (for any fuel, the selection loop exits at once) and
issues no per-item detail request; it does still issue the single listing
request. -/
theorem C6_empty_amended (opts : FetchPokemonOptions) (env : FetchEnv)
    (data : PokemonListResponse) (fuel : Nat)
    (hc : opts.count = some 0) (hl : env.listing = .ok data) :
    fetchPokemonListWithDetails opts env fuel = some (.ok []) ∧
    issuedRequests opts env fuel = some [listUrl] := by
  have h0 : resolvedCount opts = 0 := by
    unfold resolvedCount
    rw [hc]
    rfl
  constructor
  · simp only [fetchPokemonListWithDetails, hl, h0, selectLoop_count_zero]
    rfl
  · simp only [issuedRequests, hl, h0, selectLoop_count_zero]
    rfl

/-- Witness for the amended C6 at concrete inputs. -/
theorem C6_empty_amended_witness :
    fetchPokemonListWithDetails ⟨none, some 0⟩ envA 5 = some (.ok []) ∧
    issuedRequests ⟨none, some 0⟩ envA 5 = some [listUrl] :=
  C6_empty_amended ⟨none, some 0⟩ envA listingAB 5 rfl rfl

/-- A run over `listingAB` whose random stream always draws 0. -/
def envR0 : FetchEnv := ⟨.ok listingAB, fun _ => 0, fun _ => rejectEnv⟩

/-- The same run except that the random stream always draws 1. -/
def envR1 : FetchEnv := ⟨.ok listingAB, fun _ => 1, fun _ => rejectEnv⟩

/-- C7 as stated is false on the code: the entry point receives no handle
sequence.  Two executions with identical caller-supplied arguments and
identical listing and detail-request behaviour return different items,
differing only in the internal random draws — the routine lists and
selects the handles itself (and its first network request is the listing
call it issues on its own). -/
theorem C7_entry_point_counterexample :
    envR0.listing = envR1.listing ∧
    envR0.details = envR1.details ∧
    fetchPokemonListWithDetails ⟨some 100, some 1⟩ envR0 1 ≠
      fetchPokemonListWithDetails ⟨some 100, some 1⟩ envR1 1 ∧
    issuedRequests ⟨some 100, some 1⟩ envR0 1 = some [listUrl, "ua"] := by
  refine ⟨rfl, rfl, ?_, rfl⟩
  intro h
  have h1 : fetchPokemonListWithDetails ⟨some 100, some 1⟩ envR0 1 =
      some (.ok [{ name := "a", url := "ua", image := none, isLoading := false }]) := rfl
  have h2 : fetchPokemonListWithDetails ⟨some 100, some 1⟩ envR1 1 =
      some (.ok [{ name := "b", url := "ub", image := none, isLoading := false }]) := rfl
  rw [h1, h2] at h
  simp at h

/-- C7 (amended): the single entry point takes an options record
(timeout, count) and no handle sequence; it itself awaits the listing,
randomly selects the handles, and then fetches one detail record per
selected handle: the returned items are 1:1 (by name/url) with the
selection it made, and the issued requests are the listing url followed by
exactly the selected handles' urls. -/
theorem C7_entry_point_amended (opts : FetchPokemonOptions) (env : FetchEnv)
    (fuel : Nat) (data : PokemonListResponse) (ps : List PokemonWithImage)
    (hl : env.listing = .ok data)
    (hs : selectLoop data.results (resolvedCount opts) env.rand fuel 0 [] [] =
      some (.ok ps)) :
    fetchPokemonListWithDetails opts env fuel =
      some (.ok (loadDetails (resolvedTimeout opts) ps env.details)) ∧
    (loadDetails (resolvedTimeout opts) ps env.details).map
        (fun p => (p.name, p.url)) =
      ps.map (fun p => (p.name, p.url)) ∧
    issuedRequests opts env fuel = some (listUrl :: ps.map (fun p => p.url)) := by
  refine ⟨?_, loadDetails_map_name_url _ ps env.details, ?_⟩
  · simp only [fetchPokemonListWithDetails, hl, hs]
  · simp only [issuedRequests, hl, hs]

/-- Witness for the amended C7 at concrete inputs. -/
theorem C7_entry_point_amended_witness :
    fetchPokemonListWithDetails ⟨some 100, some 1⟩ envR0 1 =
      some (.ok (loadDetails 100 [placeholder itemA] envR0.details)) ∧
    (loadDetails 100 [placeholder itemA] envR0.details).map
        (fun p => (p.name, p.url)) =
      [placeholder itemA].map (fun p => (p.name, p.url)) ∧
    issuedRequests ⟨some 100, some 1⟩ envR0 1 = some (listUrl :: ["ua"]) :=
  C7_entry_point_amended ⟨some 100, some 1⟩ envR0 1 listingAB
    [placeholder itemA] rfl rfl

/-! Analysis of the random-selection loop (claim C9). -/

/-- The set of indices the random stream produces in its window of `m`
draws starting at draw `k`, for a listing of length `len`. -/
def streamIdxs (r : Nat → Nat) (len k m : Nat) : Finset Nat :=
  (Finset.range m).image (fun j => randomIndex r len (k + j))

theorem streamIdxs_zero (r : Nat → Nat) (len k : Nat) :
    streamIdxs r len k 0 = ∅ := by
  simp [streamIdxs]

theorem streamIdxs_succ (r : Nat → Nat) (len k m : Nat) :
    streamIdxs r len k (m + 1) =
      insert (randomIndex r len k) (streamIdxs r len (k + 1) m) := by
  ext x
  simp only [streamIdxs, Finset.mem_image, Finset.mem_range, Finset.mem_insert]
  constructor
  · rintro ⟨j, hj, hx⟩
    cases j with
    | zero => left; rw [← hx, Nat.add_zero]
    | succ j' =>
      right
      refine ⟨j', by omega, ?_⟩
      rw [← hx]
      congr 1
      omega
  · rintro (hx | ⟨j', hj', hx⟩)
    · exact ⟨0, by omega, by rw [Nat.add_zero, ← hx]⟩
    · refine ⟨j' + 1, by omega, ?_⟩
      rw [← hx]
      congr 1
      omega

theorem selectLoop_exit (results : List PokemonListItem) (count : Nat)
    (r : Nat → Nat) (fuel k : Nat) (acc : List PokemonWithImage)
    (used : List Nat) (h : ¬ acc.length < count) :
    selectLoop results count r fuel k acc used = some (.ok acc) := by
  cases fuel <;> simp [selectLoop, h]

theorem selectLoop_succ_mem (results : List PokemonListItem) (count : Nat)
    (r : Nat → Nat) (m k : Nat) (acc : List PokemonWithImage) (used : List Nat)
    (hlt : acc.length < count) (hmem : randomIndex r results.length k ∈ used) :
    selectLoop results count r (m + 1) k acc used =
      selectLoop results count r m (k + 1) acc used := by
  simp [selectLoop, hlt, hmem]

theorem selectLoop_succ_new (results : List PokemonListItem) (count : Nat)
    (r : Nat → Nat) (m k : Nat) (acc : List PokemonWithImage) (used : List Nat)
    (hlt : acc.length < count) (hmem : randomIndex r results.length k ∉ used)
    (e : PokemonListItem) (he : results[randomIndex r results.length k]? = some e) :
    selectLoop results count r (m + 1) k acc used =
      selectLoop results count r m (k + 1) (acc ++ [placeholder e])
        (randomIndex r results.length k :: used) := by
  simp [selectLoop, hlt, hmem, he]

theorem randomIndex_lt (r : Nat → Nat) (len k : Nat) (hlen : 0 < len) :
    randomIndex r len k < len := by
  unfold randomIndex
  rw [if_neg (by omega)]
  exact Nat.mod_lt _ hlen

theorem selectLoop_terminates (results : List PokemonListItem) (count : Nat)
    (r : Nat → Nat) (hlen : 0 < results.length) :
    ∀ (m k : Nat) (acc : List PokemonWithImage) (used : List Nat),
      count ≤ acc.length +
        ((streamIdxs r results.length k m) \ used.toFinset).card →
      ∃ sel, selectLoop results count r m k acc used = some (.ok sel) := by
  intro m
  induction m with
  | zero =>
    intro k acc used hcard
    rw [streamIdxs_zero] at hcard
    simp only [Finset.empty_sdiff, Finset.card_empty] at hcard
    exact ⟨acc, selectLoop_exit results count r 0 k acc used (by omega)⟩
  | succ m ih =>
    intro k acc used hcard
    by_cases hlt : acc.length < count
    · have hidx : randomIndex r results.length k < results.length :=
        randomIndex_lt r results.length k hlen
      rw [streamIdxs_succ] at hcard
      by_cases hmem : randomIndex r results.length k ∈ used
      · rw [Finset.insert_sdiff_of_mem _ (List.mem_toFinset.mpr hmem)] at hcard
        obtain ⟨sel, hsel⟩ := ih (k + 1) acc used hcard
        exact ⟨sel, (selectLoop_succ_mem results count r m k acc used hlt
          hmem).trans hsel⟩
      · have he : results[randomIndex r results.length k]? =
            some results[randomIndex r results.length k] :=
          List.getElem?_eq_getElem hidx
        have hsub : (insert (randomIndex r results.length k)
              (streamIdxs r results.length (k + 1) m)) \ used.toFinset ⊆
            insert (randomIndex r results.length k)
              ((streamIdxs r results.length (k + 1) m) \
                insert (randomIndex r results.length k) used.toFinset) := by
          intro x hx
          simp only [Finset.mem_sdiff, Finset.mem_insert] at hx ⊢
          tauto
        have hc2 : ((insert (randomIndex r results.length k)
              (streamIdxs r results.length (k + 1) m)) \ used.toFinset).card ≤
            ((streamIdxs r results.length (k + 1) m) \
              insert (randomIndex r results.length k) used.toFinset).card + 1 :=
          (Finset.card_le_card hsub).trans (Finset.card_insert_le _ _)
        have hcard' : count ≤
            (acc ++ [placeholder results[randomIndex r results.length k]]).length +
              ((streamIdxs r results.length (k + 1) m) \
                (randomIndex r results.length k :: used).toFinset).card := by
          rw [List.toFinset_cons]
          simp only [List.length_append, List.length_singleton]
          omega
        obtain ⟨sel, hsel⟩ := ih (k + 1)
          (acc ++ [placeholder results[randomIndex r results.length k]])
          (randomIndex r results.length k :: used) hcard'
        exact ⟨sel, (selectLoop_succ_new results count r m k acc used hlt hmem
          results[randomIndex r results.length k] he).trans hsel⟩
    · exact ⟨acc, selectLoop_exit results count r (m + 1) k acc used hlt⟩

theorem selectLoop_ok_shape (results : List PokemonListItem) (count : Nat)
    (r : Nat → Nat) :
    ∀ (fuel k : Nat) (acc : List PokemonWithImage) (used : List Nat)
      (sel : List PokemonWithImage),
      selectLoop results count r fuel k acc used = some (.ok sel) →
      used.Nodup → acc.length = used.length → acc.length ≤ count →
      used.reverse.map (fun i => results[i]?) =
        acc.map (fun p => (some ⟨p.name, p.url⟩ : Option PokemonListItem)) →
      sel.length = count ∧
        ∃ idxs : List Nat, idxs.Nodup ∧
          idxs.map (fun i => results[i]?) =
            sel.map (fun p => (some ⟨p.name, p.url⟩ : Option PokemonListItem)) := by
  intro fuel
  induction fuel with
  | zero =>
    intro k acc used sel hrun hnd hlenEq hle hinv
    by_cases hlt : acc.length < count
    · simp [selectLoop, hlt] at hrun
    · rw [selectLoop_exit results count r 0 k acc used hlt] at hrun
      have hacc : acc = sel := by
        have h1 := Option.some.inj hrun
        exact Except.ok.inj h1
      subst hacc
      exact ⟨by omega, used.reverse, List.nodup_reverse.mpr hnd, hinv⟩
  | succ m ih =>
    intro k acc used sel hrun hnd hlenEq hle hinv
    by_cases hlt : acc.length < count
    · by_cases hmem : randomIndex r results.length k ∈ used
      · rw [selectLoop_succ_mem results count r m k acc used hlt hmem] at hrun
        exact ih (k + 1) acc used sel hrun hnd hlenEq hle hinv
      · rcases he : results[randomIndex r results.length k]? with _ | e
        · rw [show selectLoop results count r (m + 1) k acc used =
              some (.error .typeError) by simp [selectLoop, hlt, hmem, he]] at hrun
          have h1 := Option.some.inj hrun
          exact absurd h1 (fun h => Except.noConfusion h)
        · rw [selectLoop_succ_new results count r m k acc used hlt hmem e he]
            at hrun
          refine ih (k + 1) (acc ++ [placeholder e])
            (randomIndex r results.length k :: used) sel hrun
            (List.nodup_cons.mpr ⟨hmem, hnd⟩) (by simp [hlenEq]) (by simp; omega)
            ?_
          simp only [List.reverse_cons, List.map_append, List.map_cons,
            List.map_nil, hinv, placeholder]
          rw [he]
    · rw [selectLoop_exit results count r (m + 1) k acc used hlt] at hrun
      have hacc : acc = sel := by
        have h1 := Option.some.inj hrun
        exact Except.ok.inj h1
      subst hacc
      exact ⟨by omega, used.reverse, List.nodup_reverse.mpr hnd, hinv⟩

theorem selectLoop_short (results : List PokemonListItem) (count : Nat)
    (r : Nat → Nat) (hne : results ≠ []) (hlen : results.length < count) :
    ∀ (fuel k : Nat) (acc : List PokemonWithImage) (used : List Nat),
      used.Nodup → (∀ i ∈ used, i < results.length) →
      acc.length = used.length →
      selectLoop results count r fuel k acc used = none := by
  have hpos : 0 < results.length := List.length_pos.mpr hne
  intro fuel
  induction fuel with
  | zero =>
    intro k acc used hnd hbd hlenEq
    have hsub : used.toFinset ⊆ Finset.range results.length := fun i hi =>
      Finset.mem_range.mpr (hbd i (List.mem_toFinset.mp hi))
    have hcard : used.length ≤ results.length := by
      have h1 := Finset.card_le_card hsub
      rw [List.toFinset_card_of_nodup hnd, Finset.card_range] at h1
      exact h1
    simp [selectLoop, show acc.length < count by omega]
  | succ m ih =>
    intro k acc used hnd hbd hlenEq
    have hsub : used.toFinset ⊆ Finset.range results.length := fun i hi =>
      Finset.mem_range.mpr (hbd i (List.mem_toFinset.mp hi))
    have hcard : used.length ≤ results.length := by
      have h1 := Finset.card_le_card hsub
      rw [List.toFinset_card_of_nodup hnd, Finset.card_range] at h1
      exact h1
    have hlt : acc.length < count := by omega
    have hidx : randomIndex r results.length k < results.length :=
      randomIndex_lt r results.length k hpos
    by_cases hmem : randomIndex r results.length k ∈ used
    · rw [selectLoop_succ_mem results count r m k acc used hlt hmem]
      exact ih (k + 1) acc used hnd hbd hlenEq
    · have he : results[randomIndex r results.length k]? =
          some results[randomIndex r results.length k] :=
        List.getElem?_eq_getElem hidx
      rw [selectLoop_succ_new results count r m k acc used hlt hmem
        results[randomIndex r results.length k] he]
      refine ih (k + 1) (acc ++ [placeholder results[randomIndex r results.length k]])
        (randomIndex r results.length k :: used)
        (List.nodup_cons.mpr ⟨hmem, hnd⟩) ?_ (by simp [hlenEq])
      intro i hi
      rcases List.mem_cons.mp hi with h1 | h2
      · rw [h1]; exact hidx
      · exact hbd i h2

theorem selectLoop_const_zero_stuck :
    ∀ (fuel k : Nat) (acc : List PokemonWithImage) (used : List Nat),
      acc.length < 2 → (0 : Nat) ∈ used →
      selectLoop [itemA, itemB] 2 (fun _ => 0) fuel k acc used = none := by
  intro fuel
  induction fuel with
  | zero =>
    intro k acc used hlt hmem
    simp [selectLoop, hlt]
  | succ m ih =>
    intro k acc used hlt hmem
    have hidx : randomIndex (fun _ => 0) ([itemA, itemB] : List PokemonListItem).length k = 0 := rfl
    rw [selectLoop_succ_mem [itemA, itemB] 2 (fun _ => 0) m k acc used hlt
      (hidx ▸ hmem)]
    exact ih (k + 1) acc used hlt hmem

/-- C9 as stated is false on the code: with the random source modelled as
an arbitrary stream of draws, a listing with at least `count` entries does
not make the loop return for every stream.  Concretely, for the two-entry
listing and `count = 2`, the stream that always draws index 0 keeps the
loop spinning forever: no amount of fuel makes it return. -/
theorem C9_selection_counterexample :
    2 ≤ listingAB.results.length ∧
    ¬ ∃ (fuel : Nat) (res : Except JsError (List PokemonWithImage)),
      selectLoop listingAB.results 2 (fun _ => 0) fuel 0 [] [] = some res := by
  refine ⟨by decide, ?_⟩
  rintro ⟨fuel, res, hres⟩
  have hnone : selectLoop listingAB.results 2 (fun _ => 0) fuel 0 [] [] = none := by
    show selectLoop [itemA, itemB] 2 (fun _ => 0) fuel 0 [] [] = none
    cases fuel with
    | zero => simp [selectLoop]
    | succ m =>
      rw [selectLoop_succ_new [itemA, itemB] 2 (fun _ => 0) m 0 [] []
        (by decide) (by decide) itemA rfl]
      exact selectLoop_const_zero_stuck m 1 [placeholder itemA] [0]
        (by decide) (by decide)
  rw [hnone] at hres
  exact Option.noConfusion hres

/-- C9 (amended): the selection loop returns normally whenever the random
stream's first `m` draws contain at least `count` distinct indices of the
(non-empty) listing — universal termination over all streams fails, only
streams that eventually supply `count` distinct indices terminate — and on
termination it has selected exactly `count` entries at pairwise-distinct
indices of the listing (no entry position is selected twice).  For a
non-empty listing with fewer than `count` entries the loop never returns,
for any stream and any amount of fuel. -/
theorem C9_selection_amended (results : List PokemonListItem) (count : Nat)
    (r : Nat → Nat) :
    (∀ m : Nat, 0 < results.length →
      count ≤ (streamIdxs r results.length 0 m).card →
      ∃ sel, selectLoop results count r m 0 [] [] = some (.ok sel) ∧
        sel.length = count ∧
        ∃ idxs : List Nat, idxs.Nodup ∧
          idxs.map (fun i => results[i]?) =
            sel.map (fun p => (some ⟨p.name, p.url⟩ : Option PokemonListItem))) ∧
    (results ≠ [] → results.length < count →
      ∀ fuel : Nat, selectLoop results count r fuel 0 [] [] = none) := by
  constructor
  · intro m hpos hcard
    obtain ⟨sel, hsel⟩ := selectLoop_terminates results count r hpos m 0 [] []
      (by simpa using hcard)
    obtain ⟨hlen, idxs, hnd, hmap⟩ := selectLoop_ok_shape results count r m 0
      [] [] sel hsel List.nodup_nil rfl (by simp) rfl
    exact ⟨sel, hsel, hlen, idxs, hnd, hmap⟩
  · intro hne hlen fuel
    exact selectLoop_short results count r hne hlen fuel 0 [] []
      List.nodup_nil (by intro i hi; cases hi) rfl

/-- Witness for the amended C9 at concrete inputs: with the identity
stream the loop over the two-entry listing selects both entries within two
draws; termination and distinctness are obtained by applying the amended
theorem. -/
theorem C9_selection_amended_witness :
    ∃ sel, selectLoop [itemA, itemB] 2 (fun k => k) 2 0 [] [] =
        some (.ok sel) ∧
      sel.length = 2 ∧
      ∃ idxs : List Nat, idxs.Nodup ∧
        idxs.map (fun i => ([itemA, itemB] : List PokemonListItem)[i]?) =
          sel.map (fun p => (some ⟨p.name, p.url⟩ : Option PokemonListItem)) :=
  (C9_selection_amended [itemA, itemB] 2 (fun k => k)).1 2 (by decide)
    (by decide)

end PokemonFetcher
